import Mathlib

/-!
Verification of the PacketLib frame codec and acknowledgment-tracking
dispatcher (`src/main.ts`, the defensive variant that the design notes
designate as canonical).

Modelling conventions:
* a MakeCode `Buffer` is a `List Nat` of bytes; element writes are masked
  `% 256` (`Uint8Array` store semantics) and out-of-range reads yield 0,
  out-of-range writes are ignored, exactly as on the device;
* a TypeScript string is its list of character codes (`List Nat`), so
  `value.length` and `value.charCodeAt i` are `List.length` / indexing;
* `Buffer.slice(offset, length)` on MakeCode takes a byte count as its
  second argument (unlike JavaScript array slice); `pxtSlice` models
  that, and `decodePacket` passes its computed `end` value as that
  second argument, exactly as the code does;
* the random id generator `randint(1, 65535)` is modelled by threading its
  next return value `genId` as an explicit argument;
* the module state touched by the dispatcher (`localId`, the registered
  handler, `pendingAcks`) is passed explicitly, and the dispatcher's
  observable effects (tracker update, frames handed to `radio.sendBuffer`,
  handler invocations) are returned as a `DispatchResult`.
-/

namespace PacketLib

/-- Constant `PROTOCOL_VERSION = 1` from `main.ts`. -/
def PROTOCOL_VERSION : Nat := 1

/-- Constant `FLAG_ACK_REQUIRED = 0x01` from `main.ts`. -/
def FLAG_ACK_REQUIRED : Nat := 1

/-- Constant `FLAG_IS_ACK = 0x02` from `main.ts`. -/
def FLAG_IS_ACK : Nat := 2

/-- Reading `buf[i]`: out-of-range reads return 0 (MakeCode Buffer). -/
def bufGet (buf : List Nat) (i : Nat) : Nat := buf.getD i 0

/-- Writing `buf[i] = v`: the value is stored modulo 256 and writes past
the end of the buffer are ignored (MakeCode Buffer / `Uint8Array`). -/
def bufSet (buf : List Nat) (i v : Nat) : List Nat := buf.set i (v % 256)

/-- `pins.createBuffer(n)`: a zero-filled buffer of `n` bytes. -/
def createBuffer (n : Nat) : List Nat := List.replicate n 0

/-- `copyBuffer(src, dst, offset)` from `main.ts`: copies `src[i]` to
`dst[offset+i]` while `i < src.length && offset + i < dst.length`.  The
loop over `i` is rendered as structural recursion on `src`. -/
def copyBuffer : List Nat → List Nat → Nat → List Nat
  | [], dst, _ => dst
  | b :: rest, dst, offset =>
      if offset < dst.length then copyBuffer rest (bufSet dst offset b) (offset + 1)
      else dst

/-- `computeChecksum(buf, length)` from `main.ts`: XOR-fold of `buf[i]`
for `i < length && i < buf.length` (i.e. of `buf.take length`), masked
with `& 0xFF` (written `% 256`, which agrees on `Nat`). -/
def computeChecksum (buf : List Nat) (length : Nat) : Nat :=
  ((buf.take length).foldl (fun s b => s ^^^ b) 0) % 256

/-- `writeString(buf, offset, value)` from `main.ts`: stores
`value.length` at `offset` (masked, like every buffer store), then copies
the character codes to `offset+1 …` while they fit in `buf` (the same
loop shape as `copyBuffer`), and returns `1 + value.length`. -/
def writeString (buf : List Nat) (offset : Nat) (value : List Nat) :
    List Nat × Nat :=
  (copyBuffer value (bufSet buf offset value.length) (offset + 1),
   1 + value.length)

/-- `readString(buf, offset)` from `main.ts`: reads the length byte,
clamps it with `len = Math.max(0, buf.length - (offset + 1))` when
`offset + 1 + len > buf.length`, then reads that many character codes. -/
def readString (buf : List Nat) (offset : Nat) : List Nat × Nat :=
  let len0 := bufGet buf offset
  let len := if buf.length < offset + 1 + len0 then buf.length - (offset + 1) else len0
  ((List.range len).map (fun i => bufGet buf (offset + 1 + i)), 1 + len)

/-- The decoded `Packet` interface from `main.ts` (strings as code lists,
the payload as a byte list). -/
structure Packet where
  version : Nat
  flags : Nat
  id : Nat
  source : List Nat
  destination : List Nat
  payload : List Nat
  deriving Repr, DecidableEq

/-- MakeCode `Buffer.slice(offset, length)`: `length` bytes starting at
`offset`, clamped to the bytes actually available. -/
def pxtSlice (buf : List Nat) (offset length : Nat) : List Nat :=
  (buf.drop offset).take length

/-- `encodePacket(id, destination, payload, flags)` from `main.ts`.
`genId` is the value `generatePacketId()` would return (the next draw of
`randint(1, 65535)`), `localId` the module's local identity string. -/
def encodePacket (genId : Nat) (localId : List Nat)
    (id : Nat) (destination : List Nat) (payload : List Nat) (flags : Nat) :
    List Nat :=
  let id1 := if id = 0 then genId else id
  let payloadLen := min payload.length 255
  let baseSize := 1 + 1 + 2 + (1 + localId.length) + (1 + destination.length) +
    (1 + payloadLen) + 1
  let b0 := createBuffer baseSize
  let b1 := bufSet b0 0 PROTOCOL_VERSION
  let b2 := bufSet b1 1 flags
  let b3 := bufSet b2 2 (id1 % 256)
  let b4 := bufSet b3 3 (id1 / 256 % 256)
  let r5 := writeString b4 4 localId
  let r6 := writeString r5.1 (4 + r5.2) destination
  let off := 4 + r5.2 + r6.2
  let b7 := bufSet r6.1 off payloadLen
  let b8 := copyBuffer (payload.take payloadLen) b7 (off + 1)
  bufSet b8 (off + 1 + payloadLen) (computeChecksum b8 (off + 1 + payloadLen))

/-- `decodePacket(buf)` from `main.ts`.  Note that the code computes an
end index `end` and clamps it to `buf.length - 1`, but then passes it to
`buf.slice(offset, end)`, whose second argument is a byte count on this
platform. -/
def decodePacket (buf : List Nat) : Packet :=
  let version := bufGet buf 0
  let flags := bufGet buf 1
  let id := bufGet buf 2 + 256 * bufGet buf 3
  let src := readString buf 4
  let dst := readString buf (4 + src.2)
  let off := 4 + src.2 + dst.2
  let payloadLen := bufGet buf off
  let e0 := off + 1 + payloadLen
  let e := if buf.length - 1 < e0 then buf.length - 1 else e0
  { version := version, flags := flags, id := id,
    source := src.1, destination := dst.1,
    payload := pxtSlice buf (off + 1) e }

/-- `sendPacket(id, payload, destination, flags)` from `main.ts`: returns
the frames handed to `radio.sendBuffer` and the updated `pendingAcks`. -/
def sendPacket (genId : Nat) (localId : List Nat)
    (id : Nat) (payload : List Nat) (destination : List Nat) (flags : Nat)
    (pendingAcks : List Nat) : List (List Nat) × List Nat :=
  let id1 := if id = 0 then genId else id
  let pkt := encodePacket genId localId id1 destination payload flags
  ([pkt],
   if flags &&& FLAG_ACK_REQUIRED ≠ 0 then pendingAcks ++ [id1] else pendingAcks)

/-- MakeCode `Array.indexOf`: index of the first occurrence, `-1` when
absent. -/
def pxtIndexOf : List Nat → Nat → Int
  | [], _ => -1
  | x :: xs, v =>
      if x = v then 0
      else
        let r := pxtIndexOf xs v
        if r < 0 then -1 else r + 1

/-- MakeCode `Array.removeAt(i)`: drops the element at index `i`. -/
def pxtRemoveAt (l : List Nat) (i : Nat) : List Nat := l.take i ++ l.drop (i + 1)

/-- Observable effects of one inbound-buffer dispatch: the updated
pending-ack collection, the frames handed to `radio.sendBuffer`, and the
packets passed to the registered handler. -/
structure DispatchResult where
  pendingAcks : List Nat
  sentFrames : List (List Nat)
  delivered : List Packet
  deriving Repr, DecidableEq

/-- The `radio.onReceivedBuffer` callback from `main.ts`.  `buf?` is the
inbound buffer (`none` models an absent/null buffer), `handlerRegistered`
whether `receiveHandler` is non-null, and `genId` the next draw of
`randint(1, 65535)` (used only if the ack-synthesis path re-generates an
id).  The character code of `"*"` is 42. -/
def onReceivedBuffer (genId : Nat) (localId : List Nat)
    (handlerRegistered : Bool) (pendingAcks : List Nat)
    (buf? : Option (List Nat)) : DispatchResult :=
  match buf? with
  | none => ⟨pendingAcks, [], []⟩
  | some buf =>
    if buf.length < 6 then ⟨pendingAcks, [], []⟩
    else
      let checksum := bufGet buf (buf.length - 1)
      if computeChecksum buf (buf.length - 1) ≠ checksum then ⟨pendingAcks, [], []⟩
      else
        let packet := decodePacket buf
        if packet.flags &&& FLAG_IS_ACK ≠ 0 then
          let idx := pxtIndexOf pendingAcks packet.id
          ⟨if 0 ≤ idx then pxtRemoveAt pendingAcks idx.toNat else pendingAcks, [], []⟩
        else
          let sent :=
            if packet.flags &&& FLAG_ACK_REQUIRED ≠ 0 then
              [encodePacket genId localId packet.id packet.source [] FLAG_IS_ACK]
            else []
          let delivered :=
            if handlerRegistered ∧ (packet.destination = localId ∨
                packet.destination = [42] ∨ packet.destination = []) then
              [packet]
            else []
          ⟨pendingAcks, sent, delivered⟩

/-- Removal of the first occurrence of `v` (the effect of
`indexOf`/`removeAt` used by the ack branch, in direct recursive form). -/
def removeFirstOcc : List Nat → Nat → List Nat
  | [], _ => []
  | x :: xs, v => if x = v then xs else x :: removeFirstOcc xs v

/-- Corruption model for the checksum claims: flip bit `b` of byte `i`. -/
def flipBit (l : List Nat) (i b : Nat) : List Nat :=
  l.set i (l.getD i 0 ^^^ 2 ^ b)

/-! ### Basic buffer lemmas -/

theorem length_bufSet (b : List Nat) (i v : Nat) :
    (bufSet b i v).length = b.length :=
  List.length_set b i (v % 256)

theorem length_copyBuffer (src : List Nat) :
    ∀ dst off, (copyBuffer src dst off).length = dst.length := by
  induction src with
  | nil => intro dst off; rfl
  | cons b rest ih =>
      intro dst off
      simp only [copyBuffer]
      split
      · rw [ih, length_bufSet]
      · rfl

theorem bufGet_bufSet_ne (b : List Nat) {i k : Nat} (h : i ≠ k) (v : Nat) :
    bufGet (bufSet b i v) k = bufGet b k := by
  simp [bufGet, bufSet, List.getD_eq_getElem?_getD, List.getElem?_set_ne h]

theorem bufGet_copyBuffer_lt (src : List Nat) :
    ∀ dst off k, k < off → bufGet (copyBuffer src dst off) k = bufGet dst k := by
  induction src with
  | nil => intro dst off k _; rfl
  | cons b rest ih =>
      intro dst off k hk
      simp only [copyBuffer]
      split
      · rw [ih _ _ _ (Nat.lt_succ_of_lt hk), bufGet_bufSet_ne _ (by omega)]
      · rfl

theorem bufSet_eq (dst : List Nat) (off v : Nat) (h : off < dst.length) :
    bufSet dst off v = dst.take off ++ (v % 256) :: dst.drop (off + 1) :=
  List.set_eq_take_cons_drop _ h

theorem take_append_of_len {α : Type} (A B : List α) (n k : Nat)
    (h : A.length = n) : (A ++ B).take (n + k) = A ++ B.take k := by
  subst h
  exact List.take_append k

theorem drop_append_of_len {α : Type} (A B : List α) (n k : Nat)
    (h : A.length = n) : (A ++ B).drop (n + k) = B.drop k := by
  subst h
  exact List.drop_append k

theorem copyBuffer_eq (src : List Nat) :
    ∀ (dst : List Nat) (off : Nat), off + src.length ≤ dst.length →
      copyBuffer src dst off =
        dst.take off ++ src.map (· % 256) ++ dst.drop (off + src.length) := by
  induction src with
  | nil =>
      intro dst off h
      simp only [copyBuffer, List.map_nil, List.append_nil]
      exact (List.take_append_drop off dst).symm
  | cons b rest ih =>
      intro dst off h
      simp only [List.length_cons] at h
      have hoff : off < dst.length := by omega
      simp only [copyBuffer, if_pos hoff]
      rw [ih _ _ (by rw [length_bufSet]; omega)]
      rw [bufSet_eq dst off b hoff]
      have hT : (dst.take off).length = off := by
        rw [List.length_take]; omega
      have h1 : (dst.take off ++ (b % 256) :: dst.drop (off + 1)).take (off + 1) =
          dst.take off ++ [b % 256] := by
        rw [take_append_of_len _ _ off 1 hT]
        simp
      have h2 : (dst.take off ++ (b % 256) :: dst.drop (off + 1)).drop
          (off + 1 + rest.length) = dst.drop (off + (rest.length + 1)) := by
        have e : off + 1 + rest.length = off + (1 + rest.length) := by omega
        rw [e, drop_append_of_len _ _ off (1 + rest.length) hT]
        have e2 : 1 + rest.length = rest.length + 1 := by omega
        rw [e2, List.drop_succ_cons, List.drop_drop]
        congr 1
        omega
      rw [h1, h2]
      simp only [List.map_cons, List.length_cons, List.append_assoc,
        List.cons_append, List.singleton_append, List.nil_append]

theorem writeString_fst_eq (buf : List Nat) (offset : Nat) (value : List Nat)
    (h : offset + 1 + value.length ≤ buf.length) :
    (writeString buf offset value).1 =
      buf.take offset ++ (value.length % 256) :: value.map (· % 256) ++
        buf.drop (offset + 1 + value.length) := by
  simp only [writeString]
  rw [copyBuffer_eq _ _ _ (by rw [length_bufSet]; omega)]
  rw [bufSet_eq buf offset value.length (by omega)]
  have hT : (buf.take offset).length = offset := by
    rw [List.length_take]; omega
  have h1 : (buf.take offset ++ (value.length % 256) :: buf.drop (offset + 1)).take
      (offset + 1) = buf.take offset ++ [value.length % 256] := by
    rw [take_append_of_len _ _ offset 1 hT]
    simp
  have h2 : (buf.take offset ++ (value.length % 256) :: buf.drop (offset + 1)).drop
      (offset + 1 + value.length) = buf.drop (offset + 1 + value.length) := by
    have e : offset + 1 + value.length = offset + (1 + value.length) := by omega
    rw [e, drop_append_of_len _ _ offset (1 + value.length) hT]
    have e2 : 1 + value.length = value.length + 1 := by omega
    rw [e2, List.drop_succ_cons, List.drop_drop]
    congr 1
    omega
  rw [h1, h2]
  simp only [List.append_assoc, List.cons_append, List.singleton_append,
    List.nil_append]


theorem writeString_snd (buf : List Nat) (offset : Nat) (value : List Nat) :
    (writeString buf offset value).2 = 1 + value.length := rfl

theorem header_eq (m : Nat) (v0 v1 v2 v3 : Nat) :
    bufSet (bufSet (bufSet (bufSet (createBuffer (4 + m)) 0 v0) 1 v1) 2 v2) 3 v3 =
      [v0 % 256, v1 % 256, v2 % 256, v3 % 256] ++ List.replicate m 0 := by
  have : createBuffer (4 + m) = 0 :: 0 :: 0 :: 0 :: List.replicate m 0 := by
    simp [createBuffer, List.replicate_add]
  rw [this]
  rfl

def encBody (genId : Nat) (localId : List Nat) (id : Nat)
    (destination payload : List Nat) (flags : Nat) : List Nat :=
  let id1 := if id = 0 then genId else id
  let payloadLen := min payload.length 255
  [PROTOCOL_VERSION % 256, flags % 256, id1 % 256, id1 / 256 % 256] ++
    ((localId.length % 256) :: localId.map (· % 256)) ++
    ((destination.length % 256) :: destination.map (· % 256)) ++
    (payloadLen :: (payload.take payloadLen).map (· % 256))

theorem writeString_into_zeros (A : List Nat) (off m : Nat) (value : List Nat)
    (hA : A.length = off) (h : 1 + value.length ≤ m) :
    (writeString (A ++ List.replicate m 0) off value).1 =
      (A ++ (value.length % 256 :: value.map (· % 256))) ++
        List.replicate (m - 1 - value.length) 0 := by
  subst hA
  rw [writeString_fst_eq _ _ _ (by simp; omega)]
  rw [List.take_left]
  have hd : (A ++ List.replicate m 0).drop (A.length + 1 + value.length) =
      List.replicate (m - 1 - value.length) 0 := by
    have e : A.length + 1 + value.length = A.length + (1 + value.length) := by omega
    rw [e, drop_append_of_len _ _ A.length (1 + value.length) rfl, List.drop_replicate]
    congr 1
    omega
  rw [hd]

theorem bufSet_into_zeros (A : List Nat) (off m v : Nat)
    (hA : A.length = off) (h : 1 ≤ m) :
    bufSet (A ++ List.replicate m 0) off v =
      (A ++ [v % 256]) ++ List.replicate (m - 1) 0 := by
  subst hA
  have e : List.replicate m 0 = 0 :: List.replicate (m - 1) (0 : Nat) := by
    have : m = (m - 1) + 1 := by omega
    rw [this]
    simp [List.replicate_succ]
  rw [e, bufSet, List.set_append]
  simp

theorem copyBuffer_into_zeros (A : List Nat) (off m : Nat) (src : List Nat)
    (hA : A.length = off) (h : src.length ≤ m) :
    copyBuffer src (A ++ List.replicate m 0) off =
      (A ++ src.map (· % 256)) ++ List.replicate (m - src.length) 0 := by
  subst hA
  rw [copyBuffer_eq _ _ _ (by simp; omega)]
  rw [List.take_left]
  rw [drop_append_of_len _ _ A.length src.length rfl, List.drop_replicate]

theorem computeChecksum_append_self (A B : List Nat) :
    computeChecksum (A ++ B) A.length = computeChecksum A A.length := by
  simp [computeChecksum, List.take_left, List.take_length]

theorem computeChecksum_mod (b : List Nat) (l : Nat) :
    computeChecksum b l % 256 = computeChecksum b l := by
  unfold computeChecksum
  omega

theorem final_step (P : List Nat) (idx : Nat) (h : P.length = idx) :
    bufSet (P ++ List.replicate 1 0) idx
        (computeChecksum (P ++ List.replicate 1 0) idx) =
      P ++ [computeChecksum P P.length] := by
  subst h
  rw [computeChecksum_append_self]
  rw [bufSet_into_zeros P P.length 1 _ rfl (by omega)]
  simp [computeChecksum_mod]

theorem encodePacket_eq (genId : Nat) (localId : List Nat) (id : Nat)
    (destination payload : List Nat) (flags : Nat) :
    encodePacket genId localId id destination payload flags =
      encBody genId localId id destination payload flags ++
        [computeChecksum (encBody genId localId id destination payload flags)
          (encBody genId localId id destination payload flags).length] := by
  simp only [encodePacket, encBody, writeString_snd]
  generalize (if id = 0 then genId else id) = id1
  set PL := payload.length ⊓ 255 with hPL
  rw [show 1 + 1 + 2 + (1 + localId.length) + (1 + destination.length) + (1 + PL) + 1
      = 4 + (4 + localId.length + destination.length + PL) from by omega]
  rw [header_eq]
  rw [show id1 % 256 % 256 = id1 % 256 from by omega]
  rw [show id1 / 256 % 256 % 256 = id1 / 256 % 256 from by omega]
  rw [writeString_into_zeros _ 4 _ localId (by rfl) (by omega)]
  rw [show 4 + localId.length + destination.length + PL - 1 - localId.length
      = 3 + (destination.length + PL) from by omega]
  rw [writeString_into_zeros _ (4 + (1 + localId.length)) _ destination
      (by simp only [List.length_append, List.length_cons, List.length_map,
        List.length_nil]; omega) (by omega)]
  rw [show 3 + (destination.length + PL) - 1 - destination.length = 2 + PL from by omega]
  rw [bufSet_into_zeros _ (4 + (1 + localId.length) + (1 + destination.length)) _ PL
      (by simp only [List.length_append, List.length_cons, List.length_map,
        List.length_nil]; omega) (by omega)]
  rw [show 2 + PL - 1 = 1 + PL from by omega]
  rw [show PL % 256 = PL from by omega]
  rw [copyBuffer_into_zeros _ (4 + (1 + localId.length) + (1 + destination.length) + 1) _
      (payload.take PL)
      (by simp only [List.length_append, List.length_cons, List.length_map,
        List.length_nil]; omega)
      (by simp only [List.length_take]; omega)]
  rw [List.length_take, show PL ⊓ payload.length = PL from by omega,
      show 1 + PL - PL = 1 from by omega]
  rw [final_step]
  · simp only [List.append_assoc, List.cons_append, List.singleton_append,
      List.nil_append]
  · simp only [List.length_append, List.length_cons, List.length_map,
      List.length_take, List.length_nil]
    omega

theorem map_range_getD (g : Nat → Nat) (v : List Nat)
    (h : ∀ i, i < v.length → g i = v.getD i 0) :
    (List.range v.length).map g = v := by
  induction v generalizing g with
  | nil => simp
  | cons x xs ih =>
      simp only [List.length_cons, List.range_succ_eq_map, List.map_cons,
        List.map_map]
      congr 1
      · simpa using h 0 (by simp)
      · exact ih (g ∘ Nat.succ) (fun i hi => by
          simpa using h (i + 1) (by simpa using hi))

theorem bufGet_at (buf A : List Nat) (x : Nat) (B : List Nat) (off : Nat)
    (hbuf : buf = A ++ x :: B) (hA : A.length = off) : bufGet buf off = x := by
  subst hA
  subst hbuf
  rw [bufGet, List.getD_append_right _ _ _ _ le_rfl]
  simp

theorem drop_at (buf A B : List Nat) (off : Nat)
    (hbuf : buf = A ++ B) (hA : A.length = off) : buf.drop off = B := by
  subst hA
  subst hbuf
  exact List.drop_left A B

theorem readString_at (buf : List Nat) (off : Nat) (A v B : List Nat)
    (hbuf : buf = A ++ v.length :: (v ++ B)) (hA : A.length = off) :
    readString buf off = (v, 1 + v.length) := by
  subst hA
  subst hbuf
  simp only [readString]
  have hlen0 : bufGet (A ++ v.length :: (v ++ B)) A.length = v.length := by
    rw [bufGet, List.getD_append_right _ _ _ _ le_rfl]
    simp
  rw [hlen0]
  have hsize : (A ++ v.length :: (v ++ B)).length =
      A.length + (1 + (v.length + B.length)) := by
    simp
    omega
  rw [if_neg (by rw [hsize]; omega)]
  have hchars : (List.range v.length).map
      (fun i => bufGet (A ++ v.length :: (v ++ B)) (A.length + 1 + i)) = v := by
    apply map_range_getD
    intro i hi
    rw [bufGet, List.getD_append_right _ _ _ _ (by omega)]
    have e : A.length + 1 + i - A.length = i + 1 := by omega
    rw [e, List.getD_cons_succ, List.getD_append _ _ _ _ hi]
  rw [hchars]

theorem decodePacket_frame (h0 h1 h2 h3 c sLen tLen pLen : Nat)
    (s t p : List Nat)
    (hs : sLen = s.length) (ht : tLen = t.length) (hp : pLen = p.length) :
    decodePacket ([h0, h1, h2, h3] ++ (sLen :: s) ++ (tLen :: t) ++
        (pLen :: p) ++ [c]) =
      ⟨h0, h1, h2 + 256 * h3, s, t, p ++ [c]⟩ := by
  subst hs
  subst ht
  subst hp
  simp only [decodePacket]
  rw [readString_at _ 4 [h0, h1, h2, h3] s
    (t.length :: (t ++ (p.length :: (p ++ [c])))) (by simp) rfl]
  dsimp only
  rw [readString_at _ (4 + (1 + s.length)) ([h0, h1, h2, h3] ++ (s.length :: s)) t
    (p.length :: (p ++ [c])) (by simp) (by simp; omega)]
  dsimp only
  rw [bufGet_at _ (([h0, h1, h2, h3] ++ (s.length :: s)) ++ (t.length :: t))
    p.length (p ++ [c]) (4 + (1 + s.length) + (1 + t.length)) (by simp)
    (by simp; omega)]
  rw [bufGet_at _ ([] : List Nat) h0
    (h1 :: h2 :: h3 :: s.length :: (s ++ (t.length :: (t ++ (p.length :: (p ++ [c]))))))
    0 (by simp) rfl]
  rw [bufGet_at _ [h0] h1
    (h2 :: h3 :: s.length :: (s ++ (t.length :: (t ++ (p.length :: (p ++ [c]))))))
    1 (by simp) rfl]
  rw [bufGet_at _ [h0, h1] h2
    (h3 :: s.length :: (s ++ (t.length :: (t ++ (p.length :: (p ++ [c]))))))
    2 (by simp) rfl]
  rw [bufGet_at _ [h0, h1, h2] h3
    (s.length :: (s ++ (t.length :: (t ++ (p.length :: (p ++ [c]))))))
    3 (by simp) rfl]
  rw [if_neg (by simp; omega)]
  simp only [pxtSlice]
  rw [drop_at _ ((([h0, h1, h2, h3] ++ (s.length :: s)) ++ (t.length :: t)) ++
      [p.length]) (p ++ [c]) (4 + (1 + s.length) + (1 + t.length) + 1)
    (by simp) (by simp; omega)]
  rw [List.take_of_length_le (by simp; omega)]

theorem map_mod_eq (v : List Nat) (h : ∀ x ∈ v, x < 256) :
    v.map (· % 256) = v := by
  induction v with
  | nil => rfl
  | cons x xs ih =>
      simp only [List.map_cons]
      rw [Nat.mod_eq_of_lt (h x (by simp)), ih (fun y hy => h y (by simp [hy]))]

theorem decode_encode (genId : Nat) (localId : List Nat) (id : Nat)
    (destination payload : List Nat) (flags : Nat)
    (hlid : localId.length ≤ 255) (hlidc : ∀ x ∈ localId, x < 256)
    (hdst : destination.length ≤ 255) (hdstc : ∀ x ∈ destination, x < 256)
    (hpay : ∀ x ∈ payload, x < 256) :
    decodePacket (encodePacket genId localId id destination payload flags) =
      ⟨1, flags % 256, (if id = 0 then genId else id) % 65536, localId,
       destination,
       payload.take (min payload.length 255) ++
         [computeChecksum
           (encBody genId localId id destination payload flags)
           (encBody genId localId id destination payload flags).length]⟩ := by
  rw [encodePacket_eq]
  simp only [encBody]
  rw [map_mod_eq _ hlidc, map_mod_eq _ hdstc,
    map_mod_eq _ (fun x hx => hpay x (List.mem_of_mem_take hx))]
  rw [show localId.length % 256 = localId.length from by omega]
  rw [show destination.length % 256 = destination.length from by omega]
  rw [decodePacket_frame _ _ _ _ _ _ _ _ _ _ _ rfl rfl
    (by simp only [List.length_take]; omega)]
  simp only [Packet.mk.injEq, and_true, true_and]
  refine ⟨by simp [PROTOCOL_VERSION], by omega⟩

theorem bufGet_lt (buf : List Nat) (i : Nat) (h : ∀ x ∈ buf, x < 256) :
    bufGet buf i < 256 := by
  rw [bufGet, List.getD_eq_getElem?_getD]
  cases hx : buf[i]? with
  | none => simp
  | some a =>
      simp only [Option.getD_some]
      obtain ⟨hlt, rfl⟩ := List.getElem?_eq_some.mp hx
      exact h _ (List.getElem_mem hlt)

theorem readString_length_le (buf : List Nat) (off : Nat)
    (h : ∀ x ∈ buf, x < 256) : (readString buf off).1.length ≤ 255 := by
  have hb := bufGet_lt buf off h
  simp only [readString, List.length_map, List.length_range]
  split
  · omega
  · omega

theorem readString_mem_lt (buf : List Nat) (off : Nat)
    (h : ∀ x ∈ buf, x < 256) :
    ∀ x ∈ (readString buf off).1, x < 256 := by
  intro x hx
  simp only [readString, List.mem_map, List.mem_range] at hx
  obtain ⟨i, _, rfl⟩ := hx
  exact bufGet_lt buf _ h

theorem decodePacket_id_lt (buf : List Nat) (h : ∀ x ∈ buf, x < 256) :
    (decodePacket buf).id < 65536 := by
  have h2 := bufGet_lt buf 2 h
  have h3 := bufGet_lt buf 3 h
  simp only [decodePacket]
  omega

theorem xorFold_lt (l : List Nat) (h : ∀ x ∈ l, x < 256) :
    l.foldl (fun s x => s ^^^ x) 0 < 256 := by
  suffices hgen : ∀ a, a < 256 → l.foldl (fun s x => s ^^^ x) a < 256 from
    hgen 0 (by omega)
  induction l with
  | nil => intro a ha; simpa using ha
  | cons x xs ih =>
      intro a ha
      simp only [List.foldl_cons]
      refine ih (fun y hy => h y (by simp [hy])) _ ?_
      have hx : x < 256 := h x (by simp)
      have : (256 : Nat) = 2 ^ 8 := by norm_num
      rw [this] at ha hx ⊢
      exact Nat.xor_lt_two_pow ha hx

theorem computeChecksum_eq_fold (buf : List Nat) (n : Nat)
    (h : ∀ x ∈ buf, x < 256) :
    computeChecksum buf n = (buf.take n).foldl (fun s x => s ^^^ x) 0 := by
  unfold computeChecksum
  exact Nat.mod_eq_of_lt
    (xorFold_lt _ (fun x hx => h x (List.mem_of_mem_take hx)))

theorem foldl_xor_acc (l : List Nat) :
    ∀ a, l.foldl (fun s x => s ^^^ x) a =
      a ^^^ l.foldl (fun s x => s ^^^ x) 0 := by
  induction l with
  | nil => intro a; simp
  | cons x xs ih =>
      intro a
      simp only [List.foldl_cons]
      rw [ih (a ^^^ x), ih (0 ^^^ x)]
      simp [Nat.zero_xor, Nat.xor_assoc]

theorem foldl_xor_set (l : List Nat) :
    ∀ i m, i < l.length →
      (l.set i (l.getD i 0 ^^^ m)).foldl (fun s x => s ^^^ x) 0 =
        l.foldl (fun s x => s ^^^ x) 0 ^^^ m := by
  induction l with
  | nil => intro i m h; simp at h
  | cons x xs ih =>
      intro i m h
      cases i with
      | zero =>
          simp only [List.getD_cons_zero, List.set_cons_zero, List.foldl_cons]
          rw [foldl_xor_acc _ (0 ^^^ (x ^^^ m)), foldl_xor_acc _ (0 ^^^ x)]
          simp only [Nat.zero_xor]
          rw [Nat.xor_assoc, Nat.xor_assoc, Nat.xor_comm m]
      | succ i' =>
          simp only [List.getD_cons_succ, List.set_cons_succ, List.foldl_cons]
          rw [foldl_xor_acc _ (0 ^^^ x), foldl_xor_acc _ (0 ^^^ x),
            ih i' m (by simpa using h)]
          simp [Nat.xor_assoc]

theorem take_set_comm (l : List Nat) :
    ∀ n i v, (l.set i v).take n = (l.take n).set i v := by
  induction l with
  | nil => intro n i v; simp
  | cons x xs ih =>
      intro n i v
      cases n with
      | zero => simp
      | succ n' =>
          cases i with
          | zero => simp
          | succ i' => simp [ih n' i' v]

theorem getD_take (l : List Nat) (n i : Nat) (h : i < n) :
    (l.take n).getD i 0 = l.getD i 0 := by
  rw [List.getD_eq_getElem?_getD, List.getD_eq_getElem?_getD,
    List.getElem?_take, if_pos h]

theorem foldTake_flip (l : List Nat) (n i b : Nat)
    (hi1 : i < n) (hi2 : i < l.length) :
    ((flipBit l i b).take n).foldl (fun s x => s ^^^ x) 0 =
      (l.take n).foldl (fun s x => s ^^^ x) 0 ^^^ 2 ^ b := by
  unfold flipBit
  rw [take_set_comm, show l.getD i 0 = (l.take n).getD i 0 from
    (getD_take l n i hi1).symm]
  exact foldl_xor_set (l.take n) i (2 ^ b)
    (by rw [List.length_take]; omega)

theorem length_flipBit (l : List Nat) (i b : Nat) :
    (flipBit l i b).length = l.length := by
  simp [flipBit]

theorem getD_flipBit_ne (l : List Nat) {i j : Nat} (h : i ≠ j) (b : Nat) :
    (flipBit l i b).getD j 0 = l.getD j 0 := by
  rw [flipBit, List.getD_eq_getElem?_getD, List.getElem?_set_ne h]
  exact (List.getD_eq_getElem?_getD l j 0).symm

theorem mem_flipBit_lt (l : List Nat) (i b : Nat) (hb : b < 8)
    (h : ∀ x ∈ l, x < 256) : ∀ x ∈ flipBit l i b, x < 256 := by
  intro x hx
  rw [flipBit] at hx
  rcases List.mem_or_eq_of_mem_set hx with hm | rfl
  · exact h x hm
  · have h1 : l.getD i 0 < 256 := bufGet_lt l i h
    have h2 : 2 ^ b < 256 := by
      calc 2 ^ b < 2 ^ 8 := Nat.pow_lt_pow_right (by norm_num) hb
      _ = 256 := by norm_num
    have e : (256 : Nat) = 2 ^ 8 := by norm_num
    rw [e] at h1 h2 ⊢
    exact Nat.xor_lt_two_pow h1 h2

theorem pxtIndexOf_nonneg_or (l : List Nat) (v : Nat) :
    pxtIndexOf l v = -1 ∨ 0 ≤ pxtIndexOf l v := by
  induction l with
  | nil => left; rfl
  | cons x xs ih =>
      simp only [pxtIndexOf]
      split
      · right; omega
      · rcases ih with h | h
        · left; simp [h]
        · right
          split
          · omega
          · omega

theorem removeAt_indexOf_eq (l : List Nat) (v : Nat) :
    (if 0 ≤ pxtIndexOf l v then pxtRemoveAt l (pxtIndexOf l v).toNat else l) =
      removeFirstOcc l v := by
  induction l with
  | nil => rfl
  | cons x xs ih =>
      by_cases hx : x = v
      · simp only [pxtIndexOf, removeFirstOcc, if_pos hx]
        rw [if_pos (le_refl (0 : Int))]
        rfl
      · rcases pxtIndexOf_nonneg_or xs v with h | h
        · simp only [pxtIndexOf, removeFirstOcc, if_neg hx]
          rw [h]
          rw [if_pos (show (-1 : Int) < 0 from by omega)]
          rw [if_neg (show ¬ (0 : Int) ≤ -1 from by omega)]
          rw [h, if_neg (show ¬ (0 : Int) ≤ -1 from by omega)] at ih
          rw [← ih]
        · simp only [pxtIndexOf, removeFirstOcc, if_neg hx]
          rw [if_neg (show ¬ pxtIndexOf xs v < 0 from by omega)]
          rw [if_pos (show (0 : Int) ≤ pxtIndexOf xs v + 1 from by omega)]
          rw [if_pos h] at ih
          have e : (pxtIndexOf xs v + 1).toNat = (pxtIndexOf xs v).toNat + 1 := by
            omega
          rw [e]
          show (x :: xs).take ((pxtIndexOf xs v).toNat + 1) ++
              (x :: xs).drop ((pxtIndexOf xs v).toNat + 1 + 1) =
            x :: removeFirstOcc xs v
          rw [List.take_succ_cons, List.drop_succ_cons, List.cons_append]
          rw [show xs.take (pxtIndexOf xs v).toNat ++
              xs.drop ((pxtIndexOf xs v).toNat + 1) =
            pxtRemoveAt xs (pxtIndexOf xs v).toNat from rfl]
          rw [ih]

theorem removeFirstOcc_not_mem (l : List Nat) (v : Nat) (h : v ∉ l) :
    removeFirstOcc l v = l := by
  induction l with
  | nil => rfl
  | cons x xs ih =>
      simp only [removeFirstOcc]
      rw [if_neg (by intro he; exact h (by simp [he]))]
      rw [ih (by intro hm; exact h (by simp [hm]))]

theorem onReceived_valid (genId : Nat) (localId : List Nat) (handler : Bool)
    (pending : List Nat) (b : List Nat)
    (hlen : ¬ b.length < 6)
    (hck : computeChecksum b (b.length - 1) = bufGet b (b.length - 1)) :
    onReceivedBuffer genId localId handler pending (some b) =
      (if (decodePacket b).flags &&& FLAG_IS_ACK ≠ 0 then
        ⟨(if 0 ≤ pxtIndexOf pending (decodePacket b).id then
            pxtRemoveAt pending (pxtIndexOf pending (decodePacket b).id).toNat
          else pending), [], []⟩
      else
        ⟨pending,
         (if (decodePacket b).flags &&& FLAG_ACK_REQUIRED ≠ 0 then
            [encodePacket genId localId (decodePacket b).id
              (decodePacket b).source [] FLAG_IS_ACK]
          else []),
         (if handler ∧ ((decodePacket b).destination = localId ∨
              (decodePacket b).destination = [42] ∨
              (decodePacket b).destination = []) then [decodePacket b]
          else [])⟩) := by
  simp only [onReceivedBuffer]
  rw [if_neg hlen, if_neg (fun hne => hne hck)]

theorem decodePacket_id_encode (genId : Nat) (localId : List Nat) (id : Nat)
    (destination payload : List Nat) (flags : Nat) :
    (decodePacket (encodePacket genId localId id destination payload
        flags)).id = (if id = 0 then genId else id) % 65536 := by
  rw [encodePacket_eq]
  generalize computeChecksum (encBody genId localId id destination payload flags)
    (encBody genId localId id destination payload flags).length = cs
  simp only [encBody, decodePacket]
  rw [bufGet_at _ [PROTOCOL_VERSION % 256, flags % 256]
    ((if id = 0 then genId else id) % 256)
    ((if id = 0 then genId else id) / 256 % 256 ::
      (localId.length % 256 :: (localId.map (· % 256) ++
        (destination.length % 256 :: (destination.map (· % 256) ++
          (min payload.length 255 ::
            ((payload.take (min payload.length 255)).map (· % 256) ++
              [cs])))))))
    2 (by simp) rfl]
  rw [bufGet_at _ [PROTOCOL_VERSION % 256, flags % 256,
      (if id = 0 then genId else id) % 256]
    ((if id = 0 then genId else id) / 256 % 256)
    (localId.length % 256 :: (localId.map (· % 256) ++
      (destination.length % 256 :: (destination.map (· % 256) ++
        (min payload.length 255 ::
          ((payload.take (min payload.length 255)).map (· % 256) ++
            [cs]))))))
    3 (by simp) rfl]
  omega

theorem encBody_length (genId : Nat) (localId : List Nat) (id : Nat)
    (destination payload : List Nat) (flags : Nat) :
    (encBody genId localId id destination payload flags).length =
      7 + localId.length + destination.length + min payload.length 255 := by
  simp only [encBody, List.length_append, List.length_cons, List.length_map,
    List.length_take, List.length_nil]
  omega

theorem encodePacket_length (genId : Nat) (localId : List Nat) (id : Nat)
    (destination payload : List Nat) (flags : Nat) :
    (encodePacket genId localId id destination payload flags).length =
      8 + localId.length + destination.length + min payload.length 255 := by
  rw [encodePacket_eq]
  simp only [List.length_append, encBody_length, List.length_cons,
    List.length_nil]
  omega

theorem encodePacket_last_byte (genId : Nat) (localId : List Nat) (id : Nat)
    (destination payload : List Nat) (flags : Nat) :
    bufGet (encodePacket genId localId id destination payload flags)
        ((encodePacket genId localId id destination payload
          flags).length - 1) =
      computeChecksum (encBody genId localId id destination payload flags)
        (encBody genId localId id destination payload flags).length := by
  rw [encodePacket_eq]
  exact bufGet_at _ (encBody genId localId id destination payload flags) _ []
    _ rfl
    (by simp only [List.length_append, List.length_cons, List.length_nil]
        omega)

theorem encode_empty_paylen_byte (genId : Nat) (localId : List Nat) (id : Nat)
    (destination : List Nat) (flags : Nat) :
    bufGet (encodePacket genId localId id destination [] flags)
        ((encodePacket genId localId id destination [] flags).length - 2)
      = 0 := by
  rw [encodePacket_eq]
  generalize computeChecksum (encBody genId localId id destination [] flags)
    (encBody genId localId id destination [] flags).length = cs
  simp only [encBody, List.length_nil, Nat.zero_min, List.take_nil,
    List.map_nil]
  exact bufGet_at _
    ([PROTOCOL_VERSION % 256, flags % 256,
      (if id = 0 then genId else id) % 256,
      (if id = 0 then genId else id) / 256 % 256] ++
      ((localId.length % 256) :: localId.map (· % 256)) ++
      ((destination.length % 256) :: destination.map (· % 256)))
    0 [cs] _ (by simp)
    (by simp only [List.length_append, List.length_cons, List.length_map,
        List.length_nil]
        omega)

/-! ### Claims -/

/-- C1 (divergence evidence): at the spec's scenario input
`encode(42, "RC", [0xFF], 0)` with local identity "A", the id,
destination, flags and source round-trip, but the decoded payload is the
input payload with the frame's trailing checksum byte appended:
`Buffer.slice` takes a byte count as its second argument on this
platform, while `decodePacket` passes the end index its clamping logic
was written for. -/
theorem roundtrip_payload_divergence :
    (decodePacket (encodePacket 0 [65] 42 [82, 67] [255] 0)).id = 42 ∧
    (decodePacket (encodePacket 0 [65] 42 [82, 67] [255] 0)).destination
        = [82, 67] ∧
    (decodePacket (encodePacket 0 [65] 42 [82, 67] [255] 0)).flags = 0 ∧
    (decodePacket (encodePacket 0 [65] 42 [82, 67] [255] 0)).source = [65] ∧
    (decodePacket (encodePacket 0 [65] 42 [82, 67] [255] 0)).payload
        = [255, 134] ∧
    (decodePacket (encodePacket 0 [65] 42 [82, 67] [255] 0)).payload
        ≠ [255] := by decide

/-- C7 (divergence evidence): encoding a 256-byte payload truncates it
to 255 bytes on the wire, but decoding the produced frame returns those
255 bytes with the frame's trailing checksum byte appended, not exactly
the first 255 bytes: the decoder's slice call passes an end index where
the platform expects a byte count. -/
theorem truncation_divergence :
    (decodePacket (encodePacket 0 [65] 1 [66] (List.replicate 256 7)
        0)).payload =
      (List.replicate 256 7).take 255 ++
        [bufGet (encodePacket 0 [65] 1 [66] (List.replicate 256 7) 0)
          ((encodePacket 0 [65] 1 [66] (List.replicate 256 7) 0).length
            - 1)] ∧
    (decodePacket (encodePacket 0 [65] 1 [66] (List.replicate 256 7)
        0)).payload ≠ (List.replicate 256 7).take 255 := by
  have hdec := decode_encode 0 [65] 1 [66] (List.replicate 256 7) 0
    (by decide) (by decide) (by decide) (by decide)
    (fun x hx => by rw [List.eq_of_mem_replicate hx]; omega)
  constructor
  · rw [hdec, encodePacket_last_byte]
    dsimp only
    rw [List.length_replicate]
    norm_num
  · rw [hdec]
    intro heq
    have hl := congrArg List.length heq
    simp only [List.length_append, List.length_take, List.length_replicate,
      List.length_cons, List.length_nil] at hl
    omega

/-- C2: for every `sendPacket` call with the ACK_REQUIRED bit set (and
any id up to the protocol's 16-bit range), the identifier appended to
`pendingAcks` is the identifier decoded from the frame actually handed to
the transport; in particular, when the caller passes id 0 the freshly
generated id (here `genId`, the value drawn from `randint(1, 65535)`) is
both on the wire and in the collection, never the sentinel 0. -/
theorem sendPacket_pending_matches_wire_id (genId : Nat) (localId : List Nat)
    (id : Nat) (payload destination : List Nat) (flags : Nat)
    (pendingAcks : List Nat)
    (hg1 : 1 ≤ genId) (hg2 : genId ≤ 65535) (hid : id ≤ 65535)
    (hack : flags &&& FLAG_ACK_REQUIRED ≠ 0) :
    (sendPacket genId localId id payload destination flags pendingAcks).2 =
      pendingAcks ++
        [(decodePacket ((sendPacket genId localId id payload destination flags
            pendingAcks).1.headD [])).id] ∧
    (decodePacket ((sendPacket genId localId id payload destination flags
        pendingAcks).1.headD [])).id ≠ 0 := by
  simp only [sendPacket, List.headD, if_pos hack]
  rw [decodePacket_id_encode]
  by_cases h : id = 0
  · rw [if_pos h]
    rw [if_neg (by omega)]
    rw [Nat.mod_eq_of_lt (by omega)]
    exact ⟨rfl, by omega⟩
  · rw [if_neg h]
    rw [if_neg h]
    rw [Nat.mod_eq_of_lt (by omega)]
    exact ⟨rfl, h⟩

/-- Witness for C2: sending with id 0, ACK_REQUIRED and generated id 7
records 7, the id decoded from the transmitted frame. -/
theorem sendPacket_pending_matches_wire_id_witness :
    (sendPacket 7 [65] 0 [] [66] 1 []).2 =
      [] ++ [(decodePacket ((sendPacket 7 [65] 0 [] [66] 1 []).1.headD [])).id] ∧
    (decodePacket ((sendPacket 7 [65] 0 [] [66] 1 []).1.headD [])).id ≠ 0 :=
  sendPacket_pending_matches_wire_id 7 [65] 0 [] [66] 1 []
    (by decide) (by decide) (by decide) (by decide)

/-- C3: on a checksum-valid inbound frame that is not an ack, with a
handler registered, the handler receives the packet exactly when the
decoded destination equals the local identity, "*" (code 42), or the
empty string; any other destination is discarded without an invocation. -/
theorem handler_destination_filter (genId : Nat) (localId : List Nat)
    (pending : List Nat) (b : List Nat)
    (hlen : ¬ b.length < 6)
    (hck : computeChecksum b (b.length - 1) = bufGet b (b.length - 1))
    (hnotack : (decodePacket b).flags &&& FLAG_IS_ACK = 0) :
    (((decodePacket b).destination = localId ∨
      (decodePacket b).destination = [42] ∨
      (decodePacket b).destination = []) →
      (onReceivedBuffer genId localId true pending (some b)).delivered =
        [decodePacket b]) ∧
    (((decodePacket b).destination ≠ localId ∧
      (decodePacket b).destination ≠ [42] ∧
      (decodePacket b).destination ≠ []) →
      (onReceivedBuffer genId localId true pending (some b)).delivered
        = []) := by
  rw [onReceived_valid genId localId true pending b hlen hck]
  rw [if_neg (by simp [hnotack])]
  constructor
  · intro hd
    show (if (true : Bool) ∧ _ then _ else []) = _
    rw [if_pos ⟨rfl, hd⟩]
  · intro hd
    show (if (true : Bool) ∧ _ then _ else []) = _
    rw [if_neg ?_]
    rintro ⟨-, hor⟩
    rcases hor with h | h | h
    · exact hd.1 h
    · exact hd.2.1 h
    · exact hd.2.2 h

/-- Witness for C3 on a concrete valid frame addressed to the local
identity "A". -/
theorem handler_destination_filter_witness :
    (((decodePacket (encodePacket 0 [65] 1 [65] [] 0)).destination = [65] ∨
      (decodePacket (encodePacket 0 [65] 1 [65] [] 0)).destination = [42] ∨
      (decodePacket (encodePacket 0 [65] 1 [65] [] 0)).destination = []) →
      (onReceivedBuffer 0 [65] true [] (some (encodePacket 0 [65] 1 [65] []
        0))).delivered = [decodePacket (encodePacket 0 [65] 1 [65] [] 0)]) ∧
    (((decodePacket (encodePacket 0 [65] 1 [65] [] 0)).destination ≠ [65] ∧
      (decodePacket (encodePacket 0 [65] 1 [65] [] 0)).destination ≠ [42] ∧
      (decodePacket (encodePacket 0 [65] 1 [65] [] 0)).destination ≠ []) →
      (onReceivedBuffer 0 [65] true [] (some (encodePacket 0 [65] 1 [65] []
        0))).delivered = []) :=
  handler_destination_filter 0 [65] [] (encodePacket 0 [65] 1 [65] [] 0)
    (by decide) (by decide) (by decide)

/-- C4: an absent buffer, a buffer shorter than 6 bytes, or a buffer whose
last byte differs from the XOR of all preceding bytes leaves the
dispatcher without observable effect: no handler invocation, no outbound
frame, and an unchanged pending-ack collection. -/
theorem invalid_frames_no_effect (genId : Nat) (localId : List Nat)
    (handler : Bool) (pending : List Nat) (buf? : Option (List Nat))
    (h : buf? = none ∨ ∃ b, buf? = some b ∧ (b.length < 6 ∨
      ((∀ x ∈ b, x < 256) ∧ bufGet b (b.length - 1) ≠
        (b.take (b.length - 1)).foldl (fun s x => s ^^^ x) 0))) :
    onReceivedBuffer genId localId handler pending buf? =
      ⟨pending, [], []⟩ := by
  rcases h with rfl | ⟨b, rfl, hbad⟩
  · rfl
  · rcases hbad with hshort | ⟨hbytes, hne⟩
    · simp only [onReceivedBuffer, if_pos hshort]
    · simp only [onReceivedBuffer]
      by_cases hs : b.length < 6
      · rw [if_pos hs]
      · rw [if_neg hs, if_pos (show computeChecksum b (b.length - 1) ≠
          bufGet b (b.length - 1) from by
            rw [computeChecksum_eq_fold b _ hbytes]
            exact fun he => hne he.symm)]

/-- Witness for C4 on a 7-byte buffer with a corrupted checksum byte. -/
theorem invalid_frames_no_effect_witness :
    onReceivedBuffer 0 [65] true [9] (some [0, 0, 0, 0, 0, 0, 5]) =
      ⟨[9], [], []⟩ :=
  invalid_frames_no_effect 0 [65] true [9] (some [0, 0, 0, 0, 0, 0, 5])
    (Or.inr ⟨[0, 0, 0, 0, 0, 0, 5], rfl, Or.inr ⟨by decide, by decide⟩⟩)

/-- C6: a checksum-valid inbound frame with IS_ACK set removes the first
occurrence of its id from the pending-ack collection (a no-op when the id
is absent) and is never delivered to the handler. -/
theorem ack_resolution (genId : Nat) (localId : List Nat) (handler : Bool)
    (pending : List Nat) (b : List Nat)
    (hlen : ¬ b.length < 6)
    (hck : computeChecksum b (b.length - 1) = bufGet b (b.length - 1))
    (hisack : (decodePacket b).flags &&& FLAG_IS_ACK ≠ 0) :
    onReceivedBuffer genId localId handler pending (some b) =
      ⟨removeFirstOcc pending (decodePacket b).id, [], []⟩ ∧
    ((decodePacket b).id ∉ pending →
      removeFirstOcc pending (decodePacket b).id = pending) := by
  rw [onReceived_valid genId localId handler pending b hlen hck, if_pos hisack]
  exact ⟨by rw [removeAt_indexOf_eq], removeFirstOcc_not_mem pending _⟩

/-- Witness for C6: an ack frame for id 7 against the tracker [9, 7, 7]
removes the first 7 only. -/
theorem ack_resolution_witness :
    onReceivedBuffer 0 [65] true [9, 7, 7] (some (encodePacket 0 [66] 7 [65]
        [] 2)) =
      ⟨removeFirstOcc [9, 7, 7]
        (decodePacket (encodePacket 0 [66] 7 [65] [] 2)).id, [], []⟩ ∧
    ((decodePacket (encodePacket 0 [66] 7 [65] [] 2)).id ∉ [9, 7, 7] →
      removeFirstOcc [9, 7, 7]
        (decodePacket (encodePacket 0 [66] 7 [65] [] 2)).id = [9, 7, 7]) :=
  ack_resolution 0 [65] true [9, 7, 7] (encodePacket 0 [66] 7 [65] [] 2)
    (by decide) (by decide) (by decide)

/-- Counterexample to C5 as stated: the checksum-valid inbound frame
[1, 1, 0, 0, 0, 0, 0, 0] has ACK_REQUIRED set, IS_ACK clear, and wire id
0; the synthesized acknowledgment calls `encodePacket` with id 0, which
regenerates a fresh id (here the draw 42), so the ack handed to the
transport does not carry the received packet's id. -/
theorem auto_ack_frame_cex :
    (decodePacket [1, 1, 0, 0, 0, 0, 0, 0]).id = 0 ∧
    (decodePacket [1, 1, 0, 0, 0, 0, 0, 0]).flags &&& FLAG_ACK_REQUIRED ≠ 0 ∧
    (decodePacket [1, 1, 0, 0, 0, 0, 0, 0]).flags &&& FLAG_IS_ACK = 0 ∧
    computeChecksum [1, 1, 0, 0, 0, 0, 0, 0] 7 =
      bufGet [1, 1, 0, 0, 0, 0, 0, 0] 7 ∧
    (onReceivedBuffer 42 [65] true []
      (some [1, 1, 0, 0, 0, 0, 0, 0])).sentFrames.length = 1 ∧
    (decodePacket ((onReceivedBuffer 42 [65] true []
        (some [1, 1, 0, 0, 0, 0, 0, 0])).sentFrames.headD [])).id ≠
      (decodePacket [1, 1, 0, 0, 0, 0, 0, 0]).id := by decide

/-- C5 (amended): for every checksum-valid inbound frame with
ACK_REQUIRED set, IS_ACK clear, and a nonzero received id, exactly one
acknowledgment frame is handed to the transport, regardless of the
frame's destination: it carries the same id, flags IS_ACK, destination
equal to the received packet's source, and an empty payload field on the
wire (zero payload-length byte, frame size 8 + |localId| + |source|
with no payload bytes); decoding that ack returns a one-byte payload
holding only the frame's trailing checksum byte, the decoder's slice
artifact.  (A received id of 0 instead triggers fresh id generation
inside the ack's `encodePacket` call.) -/
theorem auto_ack_frame (genId : Nat) (localId : List Nat) (handler : Bool)
    (pending : List Nat) (b : List Nat)
    (hlen : ¬ b.length < 6)
    (hck : computeChecksum b (b.length - 1) = bufGet b (b.length - 1))
    (hbytes : ∀ x ∈ b, x < 256)
    (hackflag : (decodePacket b).flags &&& FLAG_ACK_REQUIRED ≠ 0)
    (hnotack : (decodePacket b).flags &&& FLAG_IS_ACK = 0)
    (hid : (decodePacket b).id ≠ 0)
    (hlidlen : localId.length ≤ 255) (hlidb : ∀ x ∈ localId, x < 256) :
    ∃ ack,
      (onReceivedBuffer genId localId handler pending (some b)).sentFrames
        = [ack] ∧
      (decodePacket ack).id = (decodePacket b).id ∧
      (decodePacket ack).flags = FLAG_IS_ACK ∧
      (decodePacket ack).destination = (decodePacket b).source ∧
      ack.length = 8 + localId.length + (decodePacket b).source.length ∧
      bufGet ack (ack.length - 2) = 0 ∧
      (decodePacket ack).payload = [bufGet ack (ack.length - 1)] := by
  have hsl : (decodePacket b).source.length ≤ 255 :=
    readString_length_le b 4 hbytes
  have hsb : ∀ x ∈ (decodePacket b).source, x < 256 :=
    readString_mem_lt b 4 hbytes
  have hdec := decode_encode genId localId (decodePacket b).id
    (decodePacket b).source [] FLAG_IS_ACK hlidlen hlidb hsl hsb
    (by intro x hx; simp at hx)
  rw [onReceived_valid genId localId handler pending b hlen hck]
  rw [if_neg (by simp [hnotack])]
  refine ⟨encodePacket genId localId (decodePacket b).id
    (decodePacket b).source [] FLAG_IS_ACK, ?_, ?_, ?_, ?_, ?_, ?_, ?_⟩
  · show (if _ then _ else []) = _
    rw [if_pos hackflag]
  · rw [hdec]
    show (if (decodePacket b).id = 0 then genId else (decodePacket b).id)
      % 65536 = (decodePacket b).id
    rw [if_neg hid, Nat.mod_eq_of_lt (decodePacket_id_lt b hbytes)]
  · rw [hdec]
    show FLAG_IS_ACK % 256 = FLAG_IS_ACK
    decide
  · rw [hdec]
  · rw [encodePacket_length]
    simp
  · exact encode_empty_paylen_byte genId localId (decodePacket b).id
      (decodePacket b).source FLAG_IS_ACK
  · rw [hdec, encodePacket_last_byte]
    rfl

/-- Witness for the amended C5 on a concrete valid frame with id 7 and
ACK_REQUIRED set. -/
theorem auto_ack_frame_witness :
    ∃ ack,
      (onReceivedBuffer 3 [65] true []
        (some (encodePacket 0 [66] 7 [67] [9] 1))).sentFrames = [ack] ∧
      (decodePacket ack).id =
        (decodePacket (encodePacket 0 [66] 7 [67] [9] 1)).id ∧
      (decodePacket ack).flags = FLAG_IS_ACK ∧
      (decodePacket ack).destination =
        (decodePacket (encodePacket 0 [66] 7 [67] [9] 1)).source ∧
      ack.length = 8 + ([65] : List Nat).length +
        (decodePacket (encodePacket 0 [66] 7 [67] [9] 1)).source.length ∧
      bufGet ack (ack.length - 2) = 0 ∧
      (decodePacket ack).payload = [bufGet ack (ack.length - 1)] :=
  auto_ack_frame 3 [65] true [] (encodePacket 0 [66] 7 [67] [9] 1)
    (by decide) (by decide) (by decide) (by decide) (by decide) (by decide)
    (by decide) (by decide)

set_option maxRecDepth 40000 in
/-- Counterexample to C8 as stated: for a 256-character string the claim
predicts a length byte of 255 (the length truncated to at most 255) and a
return value of 1 + 255 = 256; `writeString` stores 256 % 256 = 0 as the
length byte and returns 1 + 256 = 257. -/
theorem writeString_overlong_cex :
    (writeString (List.replicate 258 0) 0 (List.replicate 256 65)).2 = 257 ∧
    (writeString (List.replicate 258 0) 0 (List.replicate 256 65)).2 ≠
      1 + min (List.replicate 256 65).length 255 ∧
    bufGet (writeString (List.replicate 258 0) 0
      (List.replicate 256 65)).1 0 = 0 ∧
    bufGet (writeString (List.replicate 258 0) 0
      (List.replicate 256 65)).1 0 ≠
      min (List.replicate 256 65).length 255 := by decide

/-- C8 (amended): for every input string whose character codes fit in a
byte and every buffer with room for it, `writeString` writes one length
byte holding the string's length modulo 256, followed by one byte per
character of the full (untruncated) string, and returns 1 plus the full
length.  (For strings of at most 255 characters this coincides with the
original claim.) -/
theorem writeString_behavior (buf : List Nat) (offset : Nat)
    (value : List Nat)
    (hfit : offset + 1 + value.length ≤ buf.length)
    (hv : ∀ x ∈ value, x < 256) :
    (writeString buf offset value).1 =
      buf.take offset ++ (value.length % 256) :: value ++
        buf.drop (offset + 1 + value.length) ∧
    (writeString buf offset value).2 = 1 + value.length := by
  constructor
  · rw [writeString_fst_eq buf offset value hfit, map_mod_eq value hv]
  · rfl

/-- Witness for the amended C8 at offset 0 of a 4-byte buffer. -/
theorem writeString_behavior_witness :
    (writeString [0, 0, 0, 0] 0 [7, 8]).1 =
      ([0, 0, 0, 0] : List Nat).take 0 ++
        (([7, 8] : List Nat).length % 256) :: [7, 8] ++
        ([0, 0, 0, 0] : List Nat).drop (0 + 1 + ([7, 8] : List Nat).length) ∧
    (writeString [0, 0, 0, 0] 0 [7, 8]).2 = 1 + ([7, 8] : List Nat).length :=
  writeString_behavior [0, 0, 0, 0] 0 [7, 8] (by decide) (by decide)

/-- C9: `readString` clamps the number of character bytes it reads: even
when the length byte claims more bytes than remain, at most
buffer length - offset - 1 characters are read. -/
theorem readString_clamped (buf : List Nat) (offset : Nat)
    (hoff : offset < buf.length) :
    (readString buf offset).1.length ≤ buf.length - (offset + 1) := by
  simp only [readString, List.length_map, List.length_range]
  split
  · omega
  · omega

/-- Witness for C9: a length byte of 5 with only 2 bytes remaining. -/
theorem readString_clamped_witness :
    0 < ([5, 1, 2] : List Nat).length ∧
    (readString [5, 1, 2] 0).1.length ≤ ([5, 1, 2] : List Nat).length
      - (0 + 1) :=
  ⟨by decide, readString_clamped [5, 1, 2] 0 (by decide)⟩

/-- C10: the checksum is a per-bit parity over the checked range:
flipping one bit of one byte inside the range changes the computed
checksum, while flipping the same bit position in two different bytes of
the range leaves it unchanged. -/
theorem checksum_bit_parity (buf : List Nat) (length i j b : Nat)
    (hbytes : ∀ x ∈ buf, x < 256)
    (hi1 : i < length) (hi2 : i < buf.length)
    (hj1 : j < length) (hj2 : j < buf.length)
    (hij : i ≠ j) (hb : b < 8) :
    computeChecksum (flipBit buf i b) length ≠ computeChecksum buf length ∧
    computeChecksum (flipBit (flipBit buf i b) j b) length =
      computeChecksum buf length := by
  have hF : (buf.take length).foldl (fun s x => s ^^^ x) 0 < 256 :=
    xorFold_lt _ (fun x hx => hbytes x (List.mem_of_mem_take hx))
  have h2b : 2 ^ b < 256 := by
    calc 2 ^ b < 2 ^ 8 := Nat.pow_lt_pow_right (by norm_num) hb
    _ = 256 := by norm_num
  constructor
  · unfold computeChecksum
    rw [foldTake_flip buf length i b hi1 hi2]
    have hx : (buf.take length).foldl (fun s x => s ^^^ x) 0 ^^^ 2 ^ b
        < 256 := by
      have e : (256 : Nat) = 2 ^ 8 := by norm_num
      rw [e] at hF h2b ⊢
      exact Nat.xor_lt_two_pow hF h2b
    rw [Nat.mod_eq_of_lt hx, Nat.mod_eq_of_lt hF]
    intro heq
    have hcal : (buf.take length).foldl (fun s x => s ^^^ x) 0 ^^^
        ((buf.take length).foldl (fun s x => s ^^^ x) 0 ^^^ 2 ^ b) =
        (buf.take length).foldl (fun s x => s ^^^ x) 0 ^^^
          (buf.take length).foldl (fun s x => s ^^^ x) 0 :=
      congrArg (fun z => (buf.take length).foldl (fun s x => s ^^^ x) 0
        ^^^ z) heq
    rw [← Nat.xor_assoc, Nat.xor_self, Nat.zero_xor] at hcal
    simp at hcal
  · unfold computeChecksum
    rw [foldTake_flip (flipBit buf i b) length j b hj1
      (by rw [length_flipBit]; omega)]
    rw [foldTake_flip buf length i b hi1 hi2]
    rw [Nat.xor_assoc, Nat.xor_self, Nat.xor_zero]

/-- Witness for C10 on the buffer [1, 2, 3] with bit 0 of bytes 0 and
1. -/
theorem checksum_bit_parity_witness :
    computeChecksum (flipBit [1, 2, 3] 0 0) 3 ≠
      computeChecksum [1, 2, 3] 3 ∧
    computeChecksum (flipBit (flipBit [1, 2, 3] 0 0) 1 0) 3 =
      computeChecksum [1, 2, 3] 3 :=
  checksum_bit_parity [1, 2, 3] 3 0 1 0 (by decide) (by decide) (by decide)
    (by decide) (by decide) (by decide) (by decide)

end PacketLib
